import Mathlib

/-!
Shallow embedding of the steam-id-processor coordination kernel
(src/queue-manager.js, src/redis-queue-client.js: RedisQueueClient and
CooldownManager).  JavaScript objects are modelled as association lists
with JS-object semantics (assignment replaces an existing key in place,
otherwise appends; delete removes the key), statuses and reasons are the
literal strings the source compares against, and effectful calls
(HTTP, filesystem persistence, the external steamValidator) are modelled
as explicit parameters describing their outcome.
-/

namespace SteamIdProcessor

/-- JS-object lookup: value of the first entry with key `k`. -/
def objLookup {V : Type} (m : List (String × V)) (k : String) : Option V :=
  match m with
  | [] => none
  | kv :: rest => if kv.1 == k then some kv.2 else objLookup rest k

/-- JS-object assignment `m[k] = v`: replaces the value in place when the
key is present, otherwise appends the new entry at the end. -/
def objSet {V : Type} (m : List (String × V)) (k : String) (v : V) : List (String × V) :=
  match m with
  | [] => [(k, v)]
  | kv :: rest => if kv.1 == k then (k, v) :: rest else kv :: objSet rest k v

/-- JS `delete m[k]`: removes the (first) entry with key `k`. -/
def objDelete {V : Type} (m : List (String × V)) (k : String) : List (String × V) :=
  match m with
  | [] => []
  | kv :: rest => if kv.1 == k then rest else kv :: objDelete rest k

theorem objLookup_objSet_self {V : Type} (m : List (String × V)) (k : String) (v : V) :
    objLookup (objSet m k v) k = some v := by
  induction m with
  | nil => simp [objSet, objLookup]
  | cons kv rest ih =>
    by_cases h : kv.1 = k
    · simp [objSet, objLookup, h]
    · simp only [objSet, objLookup, beq_iff_eq, h, if_false]
      exact ih

theorem objLookup_objSet_ne {V : Type} (m : List (String × V)) (k k' : String) (v : V)
    (h : k' ≠ k) : objLookup (objSet m k v) k' = objLookup m k' := by
  induction m with
  | nil => simp [objSet, objLookup, Ne.symm h]
  | cons kv rest ih =>
    by_cases hk : kv.1 = k
    · simp [objSet, objLookup, hk, Ne.symm h]
    · by_cases hk' : kv.1 = k'
      · simp [objSet, objLookup, hk, hk', h]
      · simp only [objSet, objLookup, beq_iff_eq, hk, hk', if_false]
        exact ih

theorem objLookup_objDelete_ne {V : Type} (m : List (String × V)) (k k' : String)
    (h : k' ≠ k) : objLookup (objDelete m k) k' = objLookup m k' := by
  induction m with
  | nil => simp [objDelete]
  | cons kv rest ih =>
    by_cases hk : kv.1 = k
    · simp [objDelete, objLookup, hk, Ne.symm h]
    · by_cases hk' : kv.1 = k'
      · simp [objDelete, objLookup, hk, hk', h]
      · simp only [objDelete, objLookup, beq_iff_eq, hk, hk', if_false]
        exact ih

theorem objLookup_eq_none_of_not_mem {V : Type} (m : List (String × V)) (k : String)
    (h : k ∉ m.map Prod.fst) : objLookup m k = none := by
  induction m with
  | nil => rfl
  | cons kv rest ih =>
    simp only [List.map_cons, List.mem_cons, not_or] at h
    simp only [objLookup, beq_iff_eq, Ne.symm h.1, if_false]
    exact ih h.2

theorem objLookup_objDelete_self {V : Type} (m : List (String × V)) (k : String)
    (hnd : (m.map Prod.fst).Nodup) : objLookup (objDelete m k) k = none := by
  induction m with
  | nil => simp [objDelete, objLookup]
  | cons kv rest ih =>
    simp only [List.map_cons, List.nodup_cons] at hnd
    by_cases hk : kv.1 = k
    · simp only [objDelete, beq_iff_eq, hk, if_true]
      exact objLookup_eq_none_of_not_mem rest k (hk ▸ hnd.1)
    · simp only [objDelete, objLookup, beq_iff_eq, hk, if_false]
      exact ih hnd.2

/-! ## CheckStore (queue-manager.js): profiles and the closed check set -/

/-- A profile as stored in profiles_queue.json.  `checks` is a JS object
mapping check names to status strings, modelled as an association list. -/
structure Profile where
  steam_id : String
  username : String
  timestamp : Nat
  checks : List (String × String)
deriving DecidableEq, Repr

/-- The fixed check-name set, in the creation order of addProfileToQueue. -/
def checkNames : List String :=
  ["animated_avatar", "avatar_frame", "mini_profile_background",
   "profile_background", "steam_level", "friends", "csgo_inventory"]

/-- validStatuses from updateProfileCheck. -/
def validStatuses : List String := ["to_check", "passed", "failed", "deferred"]

/-- The checks object a fresh profile is created with (all to_check). -/
def mkChecks : List (String × String) := checkNames.map (fun n => (n, "to_check"))

/-- Result of `checkSteamIdExists` on the external API service
(`{success, exists}`). -/
structure ProbeResult where
  success : Bool
  exists_ : Bool
deriving DecidableEq, Repr

/-- Outcome of addProfileToQueue as seen by its caller: the existing
profile (already in the queue), `null` (suppressed because the probe said
the id exists downstream), the freshly inserted profile, or a raised
error (persistence failure). -/
inductive AddResult where
  | alreadyPresent (p : Profile)
  | suppressed
  | added (p : Profile)
  | addFailed
deriving DecidableEq, Repr

/-- addProfileToQueue.  `apiService` is the optional existence probe
(modelled by its reply); `ts` is Date.now() at insertion; `writeOk` is
whether writeQueueProfiles succeeds (on failure the function throws and
the persisted store is unchanged). -/
def addProfileToQueue (s : List Profile) (steamId username : String)
    (apiService : Option ProbeResult) (ts : Nat) (writeOk : Bool) :
    AddResult × List Profile :=
  match s.find? (fun p => p.steam_id == steamId) with
  | some existing => (.alreadyPresent existing, s)
  | none =>
    let suppressedByProbe :=
      match apiService with
      | some r => r.success && r.exists_
      | none => false
    if suppressedByProbe then (.suppressed, s)
    else
      let finalUsername := if username.trim == "" then "Professor" else username
      let profile : Profile :=
        { steam_id := steamId, username := finalUsername, timestamp := ts, checks := mkChecks }
      if writeOk then (.added profile, s ++ [profile]) else (.addFailed, s)

/-- `profiles[profileIndex].checks[checkName] = status` applied to the
first profile whose steam_id matches (findIndex semantics). -/
def updateFirst (s : List Profile) (steamId checkName status : String) : List Profile :=
  match s with
  | [] => []
  | p :: rest =>
    if p.steam_id == steamId then
      { p with checks := objSet p.checks checkName status } :: rest
    else
      p :: updateFirst rest steamId checkName status

/-- updateProfileCheck: find the profile, validate the status against
validStatuses, assign, persist via writeQueueProfiles; false when the
profile is missing, the status is invalid, or the persistence write
fails (the source then throws and the catch returns false, leaving the
persisted store unchanged).  `writeOk` is whether writeQueueProfiles
succeeds.  Note the source never validates `checkName`. -/
def updateProfileCheck (s : List Profile) (steamId checkName status : String)
    (writeOk : Bool) : Bool × List Profile :=
  match s.find? (fun p => p.steam_id == steamId) with
  | none => (false, s)
  | some _ =>
    if status ∈ validStatuses then
      if writeOk then (true, updateFirst s steamId checkName status)
      else (false, s)
    else (false, s)

/-- removeProfileFromQueue: filter the profile out; true iff the queue
shrank (completeItems is then fired at the queue client, best effort). -/
def removeProfileFromQueue (s : List Profile) (steamId : String) : Bool × List Profile :=
  let filtered := s.filter (fun p => !(p.steam_id == steamId))
  if filtered.length < s.length then (true, filtered) else (false, s)

/-- One profile's checks after convertDeferredChecksToToCheck. -/
def convertChecks (checks : List (String × String)) : List (String × String) :=
  checks.map (fun kv => if kv.2 == "deferred" then (kv.1, "to_check") else kv)

/-- convertDeferredChecksToToCheck: rewrite every deferred status to
to_check across the whole store. -/
def convertDeferredChecksToToCheck (s : List Profile) : List Profile :=
  s.map (fun p => { p with checks := convertChecks p.checks })

/-- `Object.values(profile.checks).some(status => status === "to_check")`. -/
def hasToCheck (p : Profile) : Bool := p.checks.any (fun kv => kv.2 == "to_check")

/-- `Object.values(profile.checks).some(status => status === "deferred")`. -/
def hasDeferredCheck (p : Profile) : Bool := p.checks.any (fun kv => kv.2 == "deferred")

/-- First loop of getNextProcessableProfile: return the profile if it has
a to_check check, or if it has neither to_check nor deferred (complete). -/
def firstPass : List Profile → Option Profile
  | [] => none
  | p :: rest =>
    if hasToCheck p then some p
    else if !hasToCheck p && !hasDeferredCheck p then some p
    else firstPass rest

/-- Second loop of getNextProcessableProfile: first profile with a
deferred check. -/
def secondPass : List Profile → Option Profile
  | [] => none
  | p :: rest => if hasDeferredCheck p then some p else secondPass rest

/-- getNextProcessableProfile's selection over the stored profiles (the
pull-from-Redis refill path is modelled separately by
pullFromRedisQueue). -/
def getNextProcessableProfile (s : List Profile) : Option Profile :=
  match firstPass s with
  | some p => some p
  | none => secondPass s

/-! ## Health gate and the Redis pull loop (queue-manager.js) -/

/-- One endpoint's entry in getConnectionStatus().endpointSummary. -/
structure EndpointSummaryEntry where
  availableConnections : Nat
  totalConnections : Nat
  nextAvailableIn : Nat
deriving DecidableEq, Repr

/-- The shape isHealthyToClaimWork reads from
steamValidator.getCooldownStatus(). -/
structure ConnectionStatus where
  endpointSummary : List (String × EndpointSummaryEntry)
deriving DecidableEq, Repr

/-- isHealthyToClaimWork.  `validator` models `this.steamValidator`:
`none` when absent, `some (Except.error ())` when getCooldownStatus()
throws (caught by the try/catch), `some (Except.ok cs)` when it returns
a connection status. -/
def isHealthyToClaimWork (s : List Profile)
    (validator : Option (Except Unit ConnectionStatus)) : Bool :=
  let hasDeferredChecks := s.any hasDeferredCheck
  if hasDeferredChecks then false
  else
    match validator with
    | none => true
    | some (Except.error _) => false
    | some (Except.ok cs) =>
      cs.endpointSummary.any (fun kv => kv.2.availableConnections > 0)

/-- An item claimed from the validator queue. -/
structure Item where
  id : String
  username : String
deriving DecidableEq, Repr

/-- The per-item loop inside pullFromRedisQueue.  Each claimed item is
added with `addProfileToQueue(item.id, item.username)` — note: no
apiService argument is passed in the source.  A truthy return bumps
addedCount; a falsy return or a thrown error releases the single item
back to Redis.  `w item.id` says whether that item's persistence write
succeeds.  Returns (addedCount, released ids, final store). -/
def pullLoop (s : List Profile) (items : List Item) (w : String → Bool) (ts : Nat) :
    Nat × List String × List Profile :=
  match items with
  | [] => (0, [], s)
  | it :: rest =>
    let r := addProfileToQueue s it.id it.username none ts (w it.id)
    let tail := pullLoop r.2 rest w ts
    match r.1 with
    | .suppressed => (tail.1, it.id :: tail.2.1, tail.2.2)
    | .addFailed => (tail.1, it.id :: tail.2.1, tail.2.2)
    | _ => (tail.1 + 1, tail.2.1, tail.2.2)

/-- Observable outcome of one pullFromRedisQueue cycle. -/
structure PullResult where
  claimCalled : Bool
  addedCount : Nat
  released : List String
  store : List Profile
deriving DecidableEq, Repr

/-- pullFromRedisQueue with the Redis client configured: gate on
isHealthyToClaimWork, then claim (`claimedItems` is what claimItems
returned) and run the per-item loop. -/
def pullFromRedisQueue (s : List Profile)
    (validator : Option (Except Unit ConnectionStatus))
    (claimedItems : List Item) (w : String → Bool) (ts : Nat) : PullResult :=
  if isHealthyToClaimWork s validator then
    let r := pullLoop s claimedItems w ts
    { claimCalled := true, addedCount := r.1, released := r.2.1, store := r.2.2 }
  else
    { claimCalled := false, addedCount := 0, released := [], store := s }

/-! ## CooldownManager (redis-queue-client.js, second unit) -/

/-- Configured fixed cooldown durations in milliseconds. -/
structure CooldownDurations where
  connection_reset : Nat
  timeout : Nat
  dns_failure : Nat
deriving DecidableEq, Repr

/-- A persisted endpoint_cooldowns entry.  429 entries carry
backoff_level and duration_minutes; fixed-duration entries carry
duration_used. -/
structure CooldownRec where
  cooldown_until : Nat
  reason : String
  backoff_level : Option Nat
  applied_at : Nat
  error_message : String
  duration_minutes : Option Nat
  duration_used : Option Nat
deriving DecidableEq, Repr

/-- CooldownManager state: the persisted cooldowns object, the in-memory
backoffLevels Map, the validated backoffSequence and the configured
durations.  `saveCount` counts saveCooldowns() calls (persistence). -/
structure CMState where
  cooldowns : List (String × CooldownRec)
  backoffLevels : List (String × Nat)
  backoffSequence : List Nat
  durations : CooldownDurations
  saveCount : Nat
deriving DecidableEq, Repr

/-- markEndpointCooldown.  For a 429: escalate
`newLevel = min(currentLevel + 1, sequence.length - 1)` starting from the
in-memory level (0 when absent), store it in both the Map and the
persisted record, and set the deadline to now + sequence[newLevel]
minutes.  Other error types use the fixed configured durations with a
60000 ms fallback. -/
def markEndpointCooldown (s : CMState) (endpoint errorType errorMessage : String)
    (now : Nat) : CMState :=
  if errorType == "429" then
    let currentLevel := (objLookup s.backoffLevels endpoint).getD 0
    let newLevel := min (currentLevel + 1) (s.backoffSequence.length - 1)
    let cooldownMinutes := s.backoffSequence.getD newLevel 0
    let cooldownUntil := now + cooldownMinutes * 60 * 1000
    let r : CooldownRec :=
      { cooldown_until := cooldownUntil, reason := "429", backoff_level := some newLevel,
        applied_at := now, error_message := errorMessage,
        duration_minutes := some cooldownMinutes, duration_used := none }
    { s with backoffLevels := objSet s.backoffLevels endpoint newLevel,
             cooldowns := objSet s.cooldowns endpoint r,
             saveCount := s.saveCount + 1 }
  else
    let d :=
      if errorType == "connection_error" then s.durations.connection_reset
      else if errorType == "timeout" then s.durations.timeout
      else if errorType == "dns_failure" then s.durations.dns_failure
      else 60000
    let r : CooldownRec :=
      { cooldown_until := now + d, reason := errorType, backoff_level := none,
        applied_at := now, error_message := errorMessage,
        duration_minutes := none, duration_used := some d }
    { s with cooldowns := objSet s.cooldowns endpoint r,
             saveCount := s.saveCount + 1 }

/-- The deletion loop of cleanupExpiredCooldowns over the cooldowns
object: drop every entry with `cooldown_until <= now`, counting drops. -/
def cleanupList (m : List (String × CooldownRec)) (now : Nat) :
    List (String × CooldownRec) × Nat :=
  match m with
  | [] => ([], 0)
  | kv :: rest =>
    let t := cleanupList rest now
    if kv.2.cooldown_until ≤ now then (t.1, t.2 + 1) else (kv :: t.1, t.2)

/-- cleanupExpiredCooldowns: delete expired entries, save once when
anything was removed, and return the count.  backoffLevels is untouched. -/
def cleanupExpiredCooldowns (s : CMState) (now : Nat) : CMState × Nat :=
  let t := cleanupList s.cooldowns now
  if 0 < t.2 then
    ({ s with cooldowns := t.1, saveCount := s.saveCount + 1 }, t.2)
  else
    ({ s with cooldowns := t.1 }, t.2)

/-- resetBackoffOnSuccess: drop the endpoint from the backoffLevels Map;
delete the persisted cooldown (and save) only when its reason is 429. -/
def resetBackoffOnSuccess (s : CMState) (endpoint : String) : CMState :=
  let levels := objDelete s.backoffLevels endpoint
  match objLookup s.cooldowns endpoint with
  | some c =>
    if c.reason == "429" then
      { s with backoffLevels := levels,
               cooldowns := objDelete s.cooldowns endpoint,
               saveCount := s.saveCount + 1 }
    else
      { s with backoffLevels := levels }
  | none => { s with backoffLevels := levels }

/-- k consecutive markEndpointCooldown(e, "429", msg) calls, the i-th at
time `t i`, with no intervening resetBackoffOnSuccess or restart. -/
def mark429N (s : CMState) (e msg : String) (t : Nat → Nat) : Nat → CMState
  | 0 => s
  | k + 1 => markEndpointCooldown (mark429N s e msg t k) e "429" msg (t k)

/-! ## RedisQueueClient (redis-queue-client.js, first unit) -/

/-- A parsed queue-API response body: its truthiness-relevant `success`
field and the payload fields the client methods read. -/
structure RespBody where
  success : Bool
  items : Option (List Item)
  stats : Option Nat
  released_count : Option Nat
deriving DecidableEq, Repr

/-- What happened on the wire for one makeRequest call: an HTTP response
(with `none` body when JSON.parse of the response text throws), a
network error, or the 30 s request timeout. -/
inductive HttpOutcome where
  | response (status : Nat) (body : Option RespBody)
  | netError (msg : String)
  | timedOut
deriving DecidableEq, Repr

/-- makeRequest: resolves with the parsed body iff the status is 200 and
`parsed.success` is truthy; rejects otherwise (bad status or falsy
success, parse failure, request error, timeout). -/
def makeRequest : HttpOutcome → Except String RespBody
  | .response status (some b) =>
    if status == 200 && b.success then Except.ok b
    else Except.error "Queue API error"
  | .response _ none => Except.error "Failed to parse queue API response"
  | .netError m => Except.error ("Queue API request failed: " ++ m)
  | .timedOut => Except.error "Queue API request timeout"

/-- claimItems: the response's items on success, [] on any error
(including `response.items` being absent, which throws inside the try). -/
def claimItems (o : HttpOutcome) : List Item :=
  match makeRequest o with
  | Except.ok b =>
    match b.items with
    | some xs => xs
    | none => []
  | Except.error _ => []

/-- completeItems: true on success, false on any error. -/
def completeItems (o : HttpOutcome) : Bool :=
  match makeRequest o with
  | Except.ok _ => true
  | Except.error _ => false

/-- releaseItems: true on success, false on any error. -/
def releaseItems (o : HttpOutcome) : Bool :=
  match makeRequest o with
  | Except.ok _ => true
  | Except.error _ => false

/-- getStats: the response's stats on success, null on any error. -/
def getStats (o : HttpOutcome) : Option Nat :=
  match makeRequest o with
  | Except.ok b => b.stats
  | Except.error _ => none

/-- releaseInstance: `response.released_count || 0` on success, 0 on any
error. -/
def releaseInstance (o : HttpOutcome) : Nat :=
  match makeRequest o with
  | Except.ok b => b.released_count.getD 0
  | Except.error _ => 0

/-! ## Theorems -/

theorem hasDeferredCheck_iff (p : Profile) :
    hasDeferredCheck p = true ↔ ∃ kv ∈ p.checks, kv.2 = "deferred" := by
  simp [hasDeferredCheck, List.any_eq_true, beq_iff_eq]

theorem anyDeferred_iff (ps : List Profile) :
    ps.any hasDeferredCheck = true ↔ ∃ p ∈ ps, ∃ kv ∈ p.checks, kv.2 = "deferred" := by
  simp [List.any_eq_true, hasDeferredCheck_iff]

/-- C9: makeRequest succeeds iff the HTTP status is 200 and the parsed
body has a truthy success field; whenever it does not succeed, no client
method raises: claimItems returns [], completeItems and releaseItems
return false, getStats returns null, releaseInstance returns 0. -/
theorem claim_C9 (o : HttpOutcome) :
    ((∃ b, makeRequest o = Except.ok b) ↔
      (∃ b, o = HttpOutcome.response 200 (some b) ∧ b.success = true)) ∧
    ((∀ b, makeRequest o ≠ Except.ok b) →
      claimItems o = [] ∧ completeItems o = false ∧ releaseItems o = false ∧
      getStats o = none ∧ releaseInstance o = 0) := by
  constructor
  · constructor
    · rintro ⟨b, hb⟩
      cases o with
      | response status body =>
        cases body with
        | none => simp [makeRequest] at hb
        | some b2 =>
          simp only [makeRequest] at hb
          by_cases h : (status == 200 && b2.success) = true
          · rw [if_pos h] at hb
            cases hb
            simp only [Bool.and_eq_true, beq_iff_eq] at h
            exact ⟨b, by rw [h.1], h.2⟩
          · rw [if_neg h] at hb
            cases hb
      | netError m => simp [makeRequest] at hb
      | timedOut => simp [makeRequest] at hb
    · rintro ⟨b, rfl, hs⟩
      exact ⟨b, by simp [makeRequest, hs]⟩
  · intro hno
    cases hmk : makeRequest o with
    | ok b => exact absurd hmk (hno b)
    | error msg =>
      simp [claimItems, completeItems, releaseItems, getStats, releaseInstance, hmk]

/-- C9 witness: on a request timeout no method raises and each returns
its safe default. -/
theorem claim_C9_witness :
    claimItems HttpOutcome.timedOut = [] ∧
    completeItems HttpOutcome.timedOut = false ∧
    releaseItems HttpOutcome.timedOut = false ∧
    getStats HttpOutcome.timedOut = none ∧
    releaseInstance HttpOutcome.timedOut = 0 :=
  (claim_C9 HttpOutcome.timedOut).2 (by intro b h; simp [makeRequest] at h)

/-- C10: the health gate fails closed — when retrieving the cooldown
status from the validator throws, isHealthyToClaimWork returns false and
pullFromRedisQueue does not attempt a claim that cycle. -/
theorem claim_C10 (ps : List Profile) (items : List Item) (w : String → Bool) (ts : Nat) :
    isHealthyToClaimWork ps (some (Except.error ())) = false ∧
    (pullFromRedisQueue ps (some (Except.error ())) items w ts).claimCalled = false := by
  have h : isHealthyToClaimWork ps (some (Except.error ())) = false := by
    cases hd : ps.any hasDeferredCheck <;> simp [isHealthyToClaimWork, hd]
  exact ⟨h, by simp [pullFromRedisQueue, h]⟩

/-- C7: with a validator wired and its status readable,
isHealthyToClaimWork is true iff no stored profile has a deferred check
and some endpoint has an available connection; any deferred check forces
false regardless of the validator; and pullFromRedisQueue claims nothing
when the gate is false. -/
theorem claim_C7 :
    (∀ (ps : List Profile) (cs : ConnectionStatus),
      isHealthyToClaimWork ps (some (Except.ok cs)) = true ↔
        ((∀ p ∈ ps, ∀ kv ∈ p.checks, kv.2 ≠ "deferred") ∧
         ∃ kv ∈ cs.endpointSummary, 0 < kv.2.availableConnections)) ∧
    (∀ (ps : List Profile) (v : Option (Except Unit ConnectionStatus)),
      (∃ p ∈ ps, ∃ kv ∈ p.checks, kv.2 = "deferred") →
        isHealthyToClaimWork ps v = false) ∧
    (∀ (ps : List Profile) (v : Option (Except Unit ConnectionStatus))
        (items : List Item) (w : String → Bool) (ts : Nat),
      isHealthyToClaimWork ps v = false →
        (pullFromRedisQueue ps v items w ts).claimCalled = false ∧
        (pullFromRedisQueue ps v items w ts).addedCount = 0) := by
  refine ⟨?_, ?_, ?_⟩
  · intro ps cs
    by_cases hd : ps.any hasDeferredCheck = true
    · obtain ⟨p, hp, kv, hkv, he⟩ := (anyDeferred_iff ps).mp hd
      simp only [isHealthyToClaimWork, hd, if_true]
      constructor
      · intro h
        cases h
      · rintro ⟨hall, -⟩
        exact absurd he (hall p hp kv hkv)
    · have hd2 : ps.any hasDeferredCheck = false := by
        cases h : ps.any hasDeferredCheck
        · rfl
        · exact absurd h hd
      have hall : ∀ p ∈ ps, ∀ kv ∈ p.checks, kv.2 ≠ "deferred" := by
        intro p hp kv hkv he
        exact hd ((anyDeferred_iff ps).mpr ⟨p, hp, kv, hkv, he⟩)
      simp only [isHealthyToClaimWork, hd2, Bool.false_eq_true, if_false]
      rw [List.any_eq_true]
      constructor
      · rintro ⟨kv, hkv, hav⟩
        exact ⟨hall, kv, hkv, by simpa using hav⟩
      · rintro ⟨-, kv, hkv, hav⟩
        exact ⟨kv, hkv, by simpa using hav⟩
  · intro ps v hex
    have hd : ps.any hasDeferredCheck = true := (anyDeferred_iff ps).mpr hex
    simp [isHealthyToClaimWork, hd]
  · intro ps v items w ts h
    simp [pullFromRedisQueue, h]

/-- C7 witness: a store whose one profile has friends deferred makes the
gate false and blocks the claim even though an endpoint is available. -/
theorem claim_C7_witness :
    isHealthyToClaimWork
      [{ steam_id := "D", username := "d", timestamp := 0,
         checks := [("friends", "deferred")] }]
      (some (Except.ok ⟨[("friends", ⟨1, 1, 0⟩)]⟩)) = false ∧
    (pullFromRedisQueue
      [{ steam_id := "D", username := "d", timestamp := 0,
         checks := [("friends", "deferred")] }]
      (some (Except.ok ⟨[("friends", ⟨1, 1, 0⟩)]⟩))
      [⟨"Z", "z"⟩] (fun _ => true) 0).claimCalled = false := by
  have h := claim_C7.2.1
      [{ steam_id := "D", username := "d", timestamp := 0,
         checks := [("friends", "deferred")] }]
      (some (Except.ok ⟨[("friends", ⟨1, 1, 0⟩)]⟩))
      ⟨_, List.mem_singleton.mpr rfl, ("friends", "deferred"), by decide, rfl⟩
  refine ⟨h, (claim_C7.2.2 _ _ [⟨"Z", "z"⟩] (fun _ => true) 0 h).1⟩

/-- C8: resetBackoffOnSuccess removes the endpoint's backoff level,
deletes the persisted cooldown only when its reason is 429 (non-429
cooldowns stay in place unchanged), and leaves every other endpoint's
level and cooldown record untouched. -/
theorem claim_C8 (s : CMState) (e : String)
    (hnd1 : (s.backoffLevels.map Prod.fst).Nodup)
    (hnd2 : (s.cooldowns.map Prod.fst).Nodup) :
    objLookup (resetBackoffOnSuccess s e).backoffLevels e = none ∧
    (∀ e2, e2 ≠ e → objLookup (resetBackoffOnSuccess s e).backoffLevels e2
        = objLookup s.backoffLevels e2) ∧
    (∀ c, objLookup s.cooldowns e = some c → c.reason = "429" →
        objLookup (resetBackoffOnSuccess s e).cooldowns e = none) ∧
    (∀ c, objLookup s.cooldowns e = some c → c.reason ≠ "429" →
        objLookup (resetBackoffOnSuccess s e).cooldowns e = some c) ∧
    (∀ e2, e2 ≠ e → objLookup (resetBackoffOnSuccess s e).cooldowns e2
        = objLookup s.cooldowns e2) := by
  have hlevels : (resetBackoffOnSuccess s e).backoffLevels = objDelete s.backoffLevels e := by
    unfold resetBackoffOnSuccess
    cases hc : objLookup s.cooldowns e with
    | none => rfl
    | some c =>
      by_cases hr : c.reason = "429"
      · simp [hr]
      · simp [hr]
  have hcool : (resetBackoffOnSuccess s e).cooldowns
      = (match objLookup s.cooldowns e with
         | some c => if c.reason == "429" then objDelete s.cooldowns e else s.cooldowns
         | none => s.cooldowns) := by
    unfold resetBackoffOnSuccess
    cases hc : objLookup s.cooldowns e with
    | none => rfl
    | some c =>
      by_cases hr : c.reason = "429"
      · simp [hr]
      · simp [hr]
  refine ⟨?_, ?_, ?_, ?_, ?_⟩
  · rw [hlevels]
    exact objLookup_objDelete_self s.backoffLevels e hnd1
  · intro e2 h2
    rw [hlevels]
    exact objLookup_objDelete_ne s.backoffLevels e e2 h2
  · intro c hc hr
    rw [hcool, hc]
    simp only [beq_iff_eq, hr, if_true]
    exact objLookup_objDelete_self s.cooldowns e hnd2
  · intro c hc hr
    rw [hcool, hc]
    simp only [beq_iff_eq, hr, if_false]
    exact hc
  · intro e2 h2
    rw [hcool]
    cases hc : objLookup s.cooldowns e with
    | none => rfl
    | some c =>
      by_cases hr : c.reason = "429"
      · simp only [beq_iff_eq, hr, if_true]
        exact objLookup_objDelete_ne s.cooldowns e e2 h2
      · simp [hr]

/-- C8 witness: with one 429 cooldown for friends and a timeout cooldown
for inventory, resetting friends clears its level and record while the
inventory cooldown is untouched. -/
theorem claim_C8_witness :
    objLookup (resetBackoffOnSuccess
      { cooldowns :=
          [("friends", ⟨500, "429", some 1, 0, "m", some 2, none⟩),
           ("inventory", ⟨900, "timeout", none, 0, "t", none, some 180000⟩)],
        backoffLevels := [("friends", 1)],
        backoffSequence := [1, 2, 4],
        durations := ⟨300000, 180000, 600000⟩, saveCount := 0 } "friends").backoffLevels
      "friends" = none ∧
    objLookup (resetBackoffOnSuccess
      { cooldowns :=
          [("friends", ⟨500, "429", some 1, 0, "m", some 2, none⟩),
           ("inventory", ⟨900, "timeout", none, 0, "t", none, some 180000⟩)],
        backoffLevels := [("friends", 1)],
        backoffSequence := [1, 2, 4],
        durations := ⟨300000, 180000, 600000⟩, saveCount := 0 } "friends").cooldowns
      "friends" = none ∧
    objLookup (resetBackoffOnSuccess
      { cooldowns :=
          [("friends", ⟨500, "429", some 1, 0, "m", some 2, none⟩),
           ("inventory", ⟨900, "timeout", none, 0, "t", none, some 180000⟩)],
        backoffLevels := [("friends", 1)],
        backoffSequence := [1, 2, 4],
        durations := ⟨300000, 180000, 600000⟩, saveCount := 0 } "friends").cooldowns
      "inventory" = some ⟨900, "timeout", none, 0, "t", none, some 180000⟩ := by
  have h := claim_C8
    { cooldowns :=
        [("friends", ⟨500, "429", some 1, 0, "m", some 2, none⟩),
         ("inventory", ⟨900, "timeout", none, 0, "t", none, some 180000⟩)],
      backoffLevels := [("friends", 1)],
      backoffSequence := [1, 2, 4],
      durations := ⟨300000, 180000, 600000⟩, saveCount := 0 } "friends"
    (by decide) (by decide)
  refine ⟨h.1, h.2.2.1 ⟨500, "429", some 1, 0, "m", some 2, none⟩ (by decide) rfl, ?_⟩
  rw [h.2.2.2.2 "inventory" (by decide)]
  decide

theorem cleanupList_spec (m : List (String × CooldownRec)) (now : Nat) :
    (cleanupList m now).1 = m.filter (fun kv => decide (now < kv.2.cooldown_until)) ∧
    (cleanupList m now).2 = (m.filter (fun kv => decide (kv.2.cooldown_until ≤ now))).length := by
  induction m with
  | nil => exact ⟨rfl, rfl⟩
  | cons kv rest ih =>
    by_cases h : kv.2.cooldown_until ≤ now
    · have h2 : ¬ (now < kv.2.cooldown_until) := by omega
      simp [cleanupList, h, h2, ih.1, ih.2]
    · have h2 : now < kv.2.cooldown_until := by omega
      simp [cleanupList, h, h2, ih.1, ih.2]

theorem cleanupExpiredCooldowns_state (s : CMState) (now : Nat) :
    (cleanupExpiredCooldowns s now).1.cooldowns
        = s.cooldowns.filter (fun kv => decide (now < kv.2.cooldown_until)) ∧
    (cleanupExpiredCooldowns s now).2
        = (s.cooldowns.filter (fun kv => decide (kv.2.cooldown_until ≤ now))).length ∧
    (cleanupExpiredCooldowns s now).1.backoffLevels = s.backoffLevels ∧
    (cleanupExpiredCooldowns s now).1.backoffSequence = s.backoffSequence ∧
    (cleanupExpiredCooldowns s now).1.saveCount
        = s.saveCount + (if 0 < (cleanupExpiredCooldowns s now).2 then 1 else 0) := by
  have hc := cleanupList_spec s.cooldowns now
  by_cases h : 0 < (cleanupList s.cooldowns now).2
  · simp only [cleanupExpiredCooldowns, if_pos h]
    exact ⟨hc.1, hc.2, trivial, trivial, trivial⟩
  · simp only [cleanupExpiredCooldowns, if_neg h]
    exact ⟨hc.1, hc.2, trivial, trivial, by simp⟩

/-- One markEndpointCooldown call with errorType 429: the new level is
min(currentLevel + 1, sequence.length - 1) where currentLevel is the
in-memory level (0 when absent), and the stored record carries that
level and a deadline of now + sequence[newLevel] minutes. -/
theorem mark429_step (s : CMState) (e msg : String) (now : Nat) :
    objLookup (markEndpointCooldown s e "429" msg now).backoffLevels e
        = some (min ((objLookup s.backoffLevels e).getD 0 + 1) (s.backoffSequence.length - 1)) ∧
    objLookup (markEndpointCooldown s e "429" msg now).cooldowns e
        = some { cooldown_until := now + (s.backoffSequence.getD
                    (min ((objLookup s.backoffLevels e).getD 0 + 1)
                         (s.backoffSequence.length - 1)) 0) * 60 * 1000,
                 reason := "429",
                 backoff_level := some (min ((objLookup s.backoffLevels e).getD 0 + 1)
                    (s.backoffSequence.length - 1)),
                 applied_at := now, error_message := msg,
                 duration_minutes := some (s.backoffSequence.getD
                    (min ((objLookup s.backoffLevels e).getD 0 + 1)
                         (s.backoffSequence.length - 1)) 0),
                 duration_used := none } ∧
    (markEndpointCooldown s e "429" msg now).backoffSequence = s.backoffSequence := by
  unfold markEndpointCooldown
  simp [objLookup_objSet_self]

/-- C2: cleanupExpiredCooldowns deletes exactly the persisted cooldowns
whose deadline has passed, persists once iff anything was removed, never
touches the BackoffLevelTable — and consequently a 429 marked after the
cleanup escalates from the preserved level (previous + 1, capped at the
last sequence index), not from 0. -/
theorem claim_C2 (s : CMState) (now : Nat) (e msg : String) (L now2 : Nat) :
    (cleanupExpiredCooldowns s now).1.cooldowns
        = s.cooldowns.filter (fun kv => decide (now < kv.2.cooldown_until)) ∧
    (cleanupExpiredCooldowns s now).2
        = (s.cooldowns.filter (fun kv => decide (kv.2.cooldown_until ≤ now))).length ∧
    (cleanupExpiredCooldowns s now).1.backoffLevels = s.backoffLevels ∧
    (cleanupExpiredCooldowns s now).1.saveCount
        = s.saveCount + (if 0 < (cleanupExpiredCooldowns s now).2 then 1 else 0) ∧
    (objLookup s.backoffLevels e = some L →
      objLookup (markEndpointCooldown (cleanupExpiredCooldowns s now).1 e "429" msg
          now2).backoffLevels e
        = some (min (L + 1) (s.backoffSequence.length - 1))) := by
  obtain ⟨h1, h2, h3, h4, h5⟩ := cleanupExpiredCooldowns_state s now
  refine ⟨h1, h2, h3, h5, ?_⟩
  intro hL
  have hstep := (mark429_step (cleanupExpiredCooldowns s now).1 e msg now2).1
  rw [h3, h4, hL] at hstep
  exact hstep

/-- C2 witness: a friends 429 cooldown at level 1 expires and is cleaned
up; the table still holds level 1, so the next 429 escalates to level 2. -/
theorem claim_C2_witness :
    (cleanupExpiredCooldowns
      { cooldowns := [("friends", ⟨120000, "429", some 1, 0, "m", some 2, none⟩)],
        backoffLevels := [("friends", 1)], backoffSequence := [1, 2, 4],
        durations := ⟨300000, 180000, 600000⟩, saveCount := 3 } 120001).1.cooldowns = [] ∧
    (cleanupExpiredCooldowns
      { cooldowns := [("friends", ⟨120000, "429", some 1, 0, "m", some 2, none⟩)],
        backoffLevels := [("friends", 1)], backoffSequence := [1, 2, 4],
        durations := ⟨300000, 180000, 600000⟩, saveCount := 3 } 120001).1.backoffLevels
      = [("friends", 1)] ∧
    objLookup (markEndpointCooldown
      (cleanupExpiredCooldowns
        { cooldowns := [("friends", ⟨120000, "429", some 1, 0, "m", some 2, none⟩)],
          backoffLevels := [("friends", 1)], backoffSequence := [1, 2, 4],
          durations := ⟨300000, 180000, 600000⟩, saveCount := 3 } 120001).1
      "friends" "429" "m" 120002).backoffLevels "friends" = some 2 := by
  have h := claim_C2
    { cooldowns := [("friends", ⟨120000, "429", some 1, 0, "m", some 2, none⟩)],
      backoffLevels := [("friends", 1)], backoffSequence := [1, 2, 4],
      durations := ⟨300000, 180000, 600000⟩, saveCount := 3 } 120001 "friends" "m" 1 120002
  refine ⟨h.1.trans (by decide), h.2.2.1.trans (by decide), (h.2.2.2.2 (by decide)).trans ?_⟩
  decide

theorem mark429N_seq (s : CMState) (e msg : String) (t : Nat → Nat) (k : Nat) :
    (mark429N s e msg t k).backoffSequence = s.backoffSequence := by
  induction k with
  | zero => rfl
  | succ k ih =>
    calc (mark429N s e msg t (k + 1)).backoffSequence
        = (mark429N s e msg t k).backoffSequence :=
          (mark429_step (mark429N s e msg t k) e msg (t k)).2.2
      _ = s.backoffSequence := ih

theorem mark429N_state (s : CMState) (e msg : String) (t : Nat → Nat)
    (h0 : objLookup s.backoffLevels e = none) (k : Nat) :
    objLookup (mark429N s e msg t (k + 1)).backoffLevels e
      = some (min (k + 1) (s.backoffSequence.length - 1)) ∧
    objLookup (mark429N s e msg t (k + 1)).cooldowns e
      = some { cooldown_until := t k + (s.backoffSequence.getD
                  (min (k + 1) (s.backoffSequence.length - 1)) 0) * 60 * 1000,
               reason := "429",
               backoff_level := some (min (k + 1) (s.backoffSequence.length - 1)),
               applied_at := t k, error_message := msg,
               duration_minutes := some (s.backoffSequence.getD
                  (min (k + 1) (s.backoffSequence.length - 1)) 0),
               duration_used := none } := by
  induction k with
  | zero =>
    have h := mark429_step s e msg (t 0)
    rw [h0] at h
    exact ⟨h.1, h.2.1⟩
  | succ k ih =>
    have h := mark429_step (mark429N s e msg t (k + 1)) e msg (t (k + 1))
    rw [ih.1, mark429N_seq] at h
    have harith : min (min (k + 1) (s.backoffSequence.length - 1) + 1)
        (s.backoffSequence.length - 1) = min (k + 1 + 1) (s.backoffSequence.length - 1) := by
      omega
    simp only [Option.getD_some, harith] at h
    exact ⟨h.1, h.2.1⟩

/-- C1 counterexample: with backoff sequence [1, 2, 4] and no prior
backoff state, the very FIRST markEndpointCooldown(e, "429", …) stores
level 1 (deadline now + 2 minutes), not level min(k-1, len-1) = 0 with a
1-minute deadline as the claim states. -/
theorem claim_C1_counterexample :
    objLookup (mark429N
      { cooldowns := [], backoffLevels := [], backoffSequence := [1, 2, 4],
        durations := ⟨300000, 180000, 600000⟩, saveCount := 0 }
      "friends" "m" (fun _ => 0) 1).backoffLevels "friends" = some 1 ∧
    (1 : Nat) ≠ min (1 - 1) ([1, 2, 4].length - 1) ∧
    objLookup (mark429N
      { cooldowns := [], backoffLevels := [], backoffSequence := [1, 2, 4],
        durations := ⟨300000, 180000, 600000⟩, saveCount := 0 }
      "friends" "m" (fun _ => 0) 1).cooldowns "friends"
      = some ⟨120000, "429", some 1, 0, "m", some 2, none⟩ ∧
    (120000 : Nat) ≠ 0 + 1 * 60 * 1000 := by
  decide

/-- C1 amended: starting from an endpoint with no backoff entry, after k
consecutive markEndpointCooldown(e, "429", …) calls (no intervening
resetOnSuccess, no restart) the stored level is min(k, len-1) — the
k-th call escalates BEFORE applying, so the first 429 already uses level
min(1, len-1) — and the k-th deadline is its call time plus
backoff_sequence[min(k, len-1)] minutes. -/
theorem claim_C1 (s : CMState) (e msg : String) (t : Nat → Nat) (k : Nat)
    (h0 : objLookup s.backoffLevels e = none) (hk : 1 ≤ k) :
    objLookup (mark429N s e msg t k).backoffLevels e
      = some (min k (s.backoffSequence.length - 1)) ∧
    ∃ c, objLookup (mark429N s e msg t k).cooldowns e = some c ∧
      c.backoff_level = some (min k (s.backoffSequence.length - 1)) ∧
      c.cooldown_until = t (k - 1) + (s.backoffSequence.getD
          (min k (s.backoffSequence.length - 1)) 0) * 60 * 1000 ∧
      c.reason = "429" := by
  obtain ⟨m, rfl⟩ : ∃ m, k = m + 1 := ⟨k - 1, by omega⟩
  have h := mark429N_state s e msg t h0 m
  refine ⟨h.1, _, h.2, rfl, ?_, rfl⟩
  simp

/-- C1 witness: with sequence [1, 2, 4], three 429s at times 0, 10, 20
land on level min(3, 2) = 2 with deadline 20 + 4 minutes. -/
theorem claim_C1_witness :
    objLookup (mark429N
      { cooldowns := [], backoffLevels := [], backoffSequence := [1, 2, 4],
        durations := ⟨300000, 180000, 600000⟩, saveCount := 0 }
      "friends" "m" (fun i => i * 10) 3).backoffLevels "friends" = some (min 3 2) ∧
    ∃ c, objLookup (mark429N
      { cooldowns := [], backoffLevels := [], backoffSequence := [1, 2, 4],
        durations := ⟨300000, 180000, 600000⟩, saveCount := 0 }
      "friends" "m" (fun i => i * 10) 3).cooldowns "friends" = some c ∧
      c.backoff_level = some (min 3 2) ∧
      c.cooldown_until = 20 + 4 * 60 * 1000 ∧
      c.reason = "429" :=
  claim_C1
    { cooldowns := [], backoffLevels := [], backoffSequence := [1, 2, 4],
      durations := ⟨300000, 180000, 600000⟩, saveCount := 0 }
    "friends" "m" (fun i => i * 10) 3 (by decide) (by decide)

/-- C3 counterexample: an item whose id is already in the local store
comes back from addProfileToQueue as the (truthy) existing profile, so
the pull loop counts it as added and releases nothing — the claim
demands it be released; moreover the loop passes no existence probe. -/
theorem claim_C3_counterexample :
    (addProfileToQueue [⟨"A", "alice", 0, mkChecks⟩] "A" "alice2" none 5 true).1
      = AddResult.alreadyPresent ⟨"A", "alice", 0, mkChecks⟩ ∧
    (pullLoop [⟨"A", "alice", 0, mkChecks⟩] [⟨"A", "alice2"⟩] (fun _ => true) 5).2.1 = [] ∧
    (pullLoop [⟨"A", "alice", 0, mkChecks⟩] [⟨"A", "alice2"⟩] (fun _ => true) 5).1 = 1 := by
  decide

theorem pullLoop_cons_alreadyPresent (s : List Profile) (it : Item) (rest : List Item)
    (w : String → Bool) (ts : Nat) (p : Profile)
    (hf : s.find? (fun q => q.steam_id == it.id) = some p) :
    pullLoop s (it :: rest) w ts =
      ((pullLoop s rest w ts).1 + 1, (pullLoop s rest w ts).2.1,
       (pullLoop s rest w ts).2.2) := by
  simp [pullLoop, addProfileToQueue, hf]

theorem pullLoop_cons_added (s : List Profile) (it : Item) (rest : List Item)
    (w : String → Bool) (ts : Nat)
    (hf : s.find? (fun q => q.steam_id == it.id) = none) (hw : w it.id = true) :
    pullLoop s (it :: rest) w ts =
      ((pullLoop (s ++ [⟨it.id,
          if it.username.trim == "" then "Professor" else it.username, ts, mkChecks⟩])
            rest w ts).1 + 1,
       (pullLoop (s ++ [⟨it.id,
          if it.username.trim == "" then "Professor" else it.username, ts, mkChecks⟩])
            rest w ts).2.1,
       (pullLoop (s ++ [⟨it.id,
          if it.username.trim == "" then "Professor" else it.username, ts, mkChecks⟩])
            rest w ts).2.2) := by
  simp [pullLoop, addProfileToQueue, hf, hw]

theorem pullLoop_cons_addFailed (s : List Profile) (it : Item) (rest : List Item)
    (w : String → Bool) (ts : Nat)
    (hf : s.find? (fun q => q.steam_id == it.id) = none) (hw : w it.id = false) :
    pullLoop s (it :: rest) w ts =
      ((pullLoop s rest w ts).1, it.id :: (pullLoop s rest w ts).2.1,
       (pullLoop s rest w ts).2.2) := by
  simp [pullLoop, addProfileToQueue, hf, hw]

/-- C3 amended: the pull loop calls addProfileToQueue WITHOUT the
existence probe, so no add is ever SuppressedByProbe; it releases an
item exactly when its add threw (persistence failure on a new id), and
an item already present in the store is counted as added, not
released. -/
theorem claim_C3 :
    (∀ (s : List Profile) (id u : String) (ts : Nat) (wk : Bool),
      (addProfileToQueue s id u none ts wk).1 ≠ AddResult.suppressed) ∧
    (∀ (s : List Profile) (items : List Item) (w : String → Bool) (ts : Nat),
      ∀ x ∈ (pullLoop s items w ts).2.1, ∃ it ∈ items, it.id = x ∧ w x = false) ∧
    (∀ (s : List Profile) (it : Item) (rest : List Item) (w : String → Bool) (ts : Nat),
      s.find? (fun p => p.steam_id == it.id) = none → w it.id = false →
        (pullLoop s (it :: rest) w ts).2.1 = it.id :: (pullLoop s rest w ts).2.1 ∧
        (pullLoop s (it :: rest) w ts).1 = (pullLoop s rest w ts).1) ∧
    (∀ (s : List Profile) (it : Item) (rest : List Item) (w : String → Bool) (ts : Nat)
        (p : Profile),
      s.find? (fun q => q.steam_id == it.id) = some p →
        (pullLoop s (it :: rest) w ts).2.1 = (pullLoop s rest w ts).2.1 ∧
        (pullLoop s (it :: rest) w ts).1 = (pullLoop s rest w ts).1 + 1) := by
  have hns : ∀ (s : List Profile) (id u : String) (ts : Nat) (wk : Bool),
      (addProfileToQueue s id u none ts wk).1 ≠ AddResult.suppressed := by
    intro s id u ts wk
    unfold addProfileToQueue
    cases hf : s.find? (fun p => p.steam_id == id) with
    | some p => simp
    | none =>
      cases wk with
      | false => simp
      | true => simp
  refine ⟨hns, ?_, ?_, ?_⟩
  · intro s items w ts
    induction items generalizing s with
    | nil => intro x hx; simp [pullLoop] at hx
    | cons it rest ih =>
      intro x hx
      cases hf : s.find? (fun p => p.steam_id == it.id) with
      | some p =>
        rw [pullLoop_cons_alreadyPresent s it rest w ts p hf] at hx
        obtain ⟨y, hy, h1, h2⟩ := ih s x hx
        exact ⟨y, List.mem_cons_of_mem it hy, h1, h2⟩
      | none =>
        cases hw : w it.id with
        | true =>
          rw [pullLoop_cons_added s it rest w ts hf hw] at hx
          obtain ⟨y, hy, h1, h2⟩ := ih _ x hx
          exact ⟨y, List.mem_cons_of_mem it hy, h1, h2⟩
        | false =>
          rw [pullLoop_cons_addFailed s it rest w ts hf hw] at hx
          simp only [List.mem_cons] at hx
          cases hx with
          | inl h => exact ⟨it, List.mem_cons_self it rest, h.symm, h ▸ hw⟩
          | inr h =>
            obtain ⟨y, hy, h1, h2⟩ := ih s x h
            exact ⟨y, List.mem_cons_of_mem it hy, h1, h2⟩
  · intro s it rest w ts hf hw
    rw [pullLoop_cons_addFailed s it rest w ts hf hw]
    exact ⟨rfl, rfl⟩
  · intro s it rest w ts p hf
    rw [pullLoop_cons_alreadyPresent s it rest w ts p hf]
    exact ⟨rfl, rfl⟩

/-- C3 witness: a new id whose persistence write fails is released; an
id already stored at the head of the loop is not. -/
theorem claim_C3_witness :
    (pullLoop [] ([⟨"B", "bob"⟩] : List Item) (fun _ => false) 0).2.1
        = "B" :: (pullLoop [] ([] : List Item) (fun _ => false) 0).2.1 ∧
    (pullLoop [⟨"A", "alice", 0, mkChecks⟩] ([⟨"A", "x"⟩] : List Item)
        (fun _ => true) 0).2.1
      = (pullLoop [⟨"A", "alice", 0, mkChecks⟩] ([] : List Item) (fun _ => true) 0).2.1 :=
  ⟨(claim_C3.2.2.1 [] ⟨"B", "bob"⟩ [] (fun _ => false) 0 (by decide) rfl).1,
   (claim_C3.2.2.2 [⟨"A", "alice", 0, mkChecks⟩] ⟨"A", "x"⟩ [] (fun _ => true) 0
      ⟨"A", "alice", 0, mkChecks⟩ (by decide)).1⟩

theorem find?_updateFirst (s : List Profile) (id ck st : String) (p : Profile)
    (h : s.find? (fun q => q.steam_id == id) = some p) :
    (updateFirst s id ck st).find? (fun q => q.steam_id == id)
      = some { p with checks := objSet p.checks ck st } := by
  induction s with
  | nil => simp [List.find?] at h
  | cons q rest ih =>
    by_cases hq : q.steam_id = id
    · rw [List.find?_cons_of_pos _ (by simp [hq])] at h
      cases h
      simp only [updateFirst, beq_iff_eq, hq, if_true]
      exact List.find?_cons_of_pos _ (by simp [hq])
    · rw [List.find?_cons_of_neg _ (by simp [hq])] at h
      simp only [updateFirst, beq_iff_eq, hq, if_false]
      rw [List.find?_cons_of_neg _ (by simp [hq])]
      exact ih h

/-- C4 counterexample: updating a check name that is NOT present in the
profile's checks mapping (with the persistence write succeeding) returns
true and mutates the store (the key is created), whereas the claim says
it must return false and leave the store unchanged. -/
theorem claim_C4_counterexample :
    objLookup (Profile.mk "A" "alice" 0 mkChecks).checks "bogus" = none ∧
    (updateProfileCheck [⟨"A", "alice", 0, mkChecks⟩] "A" "bogus" "passed" true).1 = true ∧
    (updateProfileCheck [⟨"A", "alice", 0, mkChecks⟩] "A" "bogus" "passed" true).2
      ≠ [⟨"A", "alice", 0, mkChecks⟩] := by
  decide

/-- C4 amended: updateProfileCheck returns false exactly when the
profile is not found, the status is outside the four-element set, or
the persistence write fails — the presence of check_name is NOT
checked — and in every false case the persisted store is unchanged; it
returns true exactly when it located the profile, wrote the status
under check_name in that profile (updating the key in place when
present, appending it otherwise), and persisted. -/
theorem claim_C4 (s : List Profile) (id ck st : String) (wk : Bool) :
    ((updateProfileCheck s id ck st wk).1 = false ↔
      (s.find? (fun p => p.steam_id == id) = none ∨ st ∉ validStatuses ∨ wk = false)) ∧
    ((updateProfileCheck s id ck st wk).1 = false →
      (updateProfileCheck s id ck st wk).2 = s) ∧
    (∀ p, s.find? (fun q => q.steam_id == id) = some p → st ∈ validStatuses → wk = true →
      (updateProfileCheck s id ck st wk).1 = true ∧
      (updateProfileCheck s id ck st wk).2.find? (fun q => q.steam_id == id)
        = some { p with checks := objSet p.checks ck st } ∧
      objLookup (objSet p.checks ck st) ck = some st) := by
  refine ⟨?_, ?_, ?_⟩
  · cases hf : s.find? (fun p => p.steam_id == id) with
    | none => simp [updateProfileCheck, hf]
    | some p =>
      by_cases hst : st ∈ validStatuses
      · cases wk with
        | false => simp [updateProfileCheck, hf, hst]
        | true => simp [updateProfileCheck, hf, hst]
      · simp [updateProfileCheck, hf, hst]
  · intro h
    cases hf : s.find? (fun p => p.steam_id == id) with
    | none => simp [updateProfileCheck, hf]
    | some p =>
      by_cases hst : st ∈ validStatuses
      · cases wk with
        | false => simp [updateProfileCheck, hf, hst]
        | true =>
          rw [show (updateProfileCheck s id ck st true).1 = true by
              simp [updateProfileCheck, hf, hst]] at h
          cases h
      · simp [updateProfileCheck, hf, hst]
  · intro p hf hst hwk
    subst hwk
    have h1 : (updateProfileCheck s id ck st true).1 = true := by
      simp [updateProfileCheck, hf, hst]
    have h2 : (updateProfileCheck s id ck st true).2 = updateFirst s id ck st := by
      simp [updateProfileCheck, hf, hst]
    exact ⟨h1, h2 ▸ find?_updateFirst s id ck st p hf,
      objLookup_objSet_self p.checks ck st⟩

/-- C4 witness: on a stored profile, a valid-status update of friends
with a succeeding write returns true and the written status is readable
back; with a failing write the same update returns false and leaves the
persisted store unchanged. -/
theorem claim_C4_witness :
    (updateProfileCheck [⟨"A", "alice", 0, mkChecks⟩] "A" "friends" "passed" true).1
        = true ∧
    objLookup (objSet (mkChecks) "friends" "passed") "friends" = some "passed" ∧
    (updateProfileCheck [⟨"A", "alice", 0, mkChecks⟩] "A" "friends" "passed" false).1
        = false ∧
    (updateProfileCheck [⟨"A", "alice", 0, mkChecks⟩] "A" "friends" "passed" false).2
        = [⟨"A", "alice", 0, mkChecks⟩] := by
  have h := (claim_C4 [⟨"A", "alice", 0, mkChecks⟩] "A" "friends" "passed" true).2.2
    ⟨"A", "alice", 0, mkChecks⟩ (by decide) (by decide) rfl
  have hfail :=
    ((claim_C4 [⟨"A", "alice", 0, mkChecks⟩] "A" "friends" "passed" false).1).mpr
      (Or.inr (Or.inr rfl))
  exact ⟨h.1, h.2.2, hfail,
    (claim_C4 [⟨"A", "alice", 0, mkChecks⟩] "A" "friends" "passed" false).2.1 hfail⟩

theorem firstPass_eq_find? (s : List Profile) :
    firstPass s = s.find? (fun p => hasToCheck p || (!hasToCheck p && !hasDeferredCheck p)) := by
  induction s with
  | nil => rfl
  | cons p rest ih =>
    by_cases ht : hasToCheck p = true
    · rw [List.find?_cons_of_pos _ (by simp [ht])]
      simp [firstPass, ht]
    · have ht2 : hasToCheck p = false := by
        cases h : hasToCheck p
        · rfl
        · exact absurd h ht
      by_cases hd : hasDeferredCheck p = true
      · rw [List.find?_cons_of_neg _ (by simp [ht2, hd])]
        simp [firstPass, ht2, hd, ih]
      · have hd2 : hasDeferredCheck p = false := by
          cases h : hasDeferredCheck p
          · rfl
          · exact absurd h hd
        rw [List.find?_cons_of_pos _ (by simp [ht2, hd2])]
        simp [firstPass, ht2, hd2]

theorem secondPass_eq_find? (s : List Profile) :
    secondPass s = s.find? hasDeferredCheck := by
  induction s with
  | nil => rfl
  | cons p rest ih =>
    by_cases hd : hasDeferredCheck p = true
    · rw [List.find?_cons_of_pos _ hd]
      simp [secondPass, hd]
    · have hd2 : hasDeferredCheck p = false := by
        cases h : hasDeferredCheck p
        · rfl
        · exact absurd h hd
      rw [List.find?_cons_of_neg _ (by simp [hd2])]
      simp [secondPass, hd2, ih]

/-- C6 counterexample: with a fully terminal profile stored BEFORE a
profile that still has to_check checks, getNextProcessableProfile
returns the terminal one — the claim demands the first profile with a
to_check check be preferred over any all-terminal profile. -/
theorem claim_C6_counterexample :
    hasToCheck ⟨"T", "t", 0, checkNames.map (fun n => (n, "passed"))⟩ = false ∧
    hasToCheck ⟨"A", "alice", 1, mkChecks⟩ = true ∧
    getNextProcessableProfile
        [⟨"T", "t", 0, checkNames.map (fun n => (n, "passed"))⟩,
         ⟨"A", "alice", 1, mkChecks⟩]
      = some ⟨"T", "t", 0, checkNames.map (fun n => (n, "passed"))⟩ ∧
    (⟨"T", "t", 0, checkNames.map (fun n => (n, "passed"))⟩ : Profile)
      ≠ ⟨"A", "alice", 1, mkChecks⟩ := by
  decide

/-- C6 amended: getNextProcessableProfile makes ONE pass returning the
first profile in insertion order that either has a to_check check or
has neither to_check nor deferred checks (all terminal) — whichever
kind occurs first — then a second pass returning the first profile with
a deferred check, and null only when the store is empty (every stored
profile falls in one of the categories). -/
theorem claim_C6 (s : List Profile) :
    getNextProcessableProfile s =
      (match s.find? (fun p => hasToCheck p || (!hasToCheck p && !hasDeferredCheck p)) with
       | some p => some p
       | none => s.find? hasDeferredCheck) ∧
    (getNextProcessableProfile s = none ↔ s = []) := by
  constructor
  · rw [getNextProcessableProfile, firstPass_eq_find?, secondPass_eq_find?]
  · constructor
    · intro h
      cases s with
      | nil => rfl
      | cons p rest =>
        exfalso
        rw [getNextProcessableProfile] at h
        cases hfp : firstPass (p :: rest) with
        | some q => rw [hfp] at h; cases h
        | none =>
          rw [hfp] at h
          have hcond : (hasToCheck p || (!hasToCheck p && !hasDeferredCheck p)) = false := by
            rw [firstPass_eq_find?] at hfp
            have := List.find?_eq_none.mp hfp p (List.mem_cons_self p rest)
            simpa using this
          simp only [Bool.or_eq_false_iff, Bool.and_eq_false_iff,
            Bool.not_eq_false] at hcond
          have hd : hasDeferredCheck p = true := by
            rcases hcond.2 with h2 | h2
            · have h3 : hasToCheck p = true := by simpa using h2
              rw [h3] at hcond
              cases hcond.1
            · simpa using h2
          have := List.find?_eq_none.mp (by simpa [secondPass_eq_find?] using h) p
            (List.mem_cons_self p rest)
          exact absurd hd (by simpa using this)
    · rintro rfl
      rfl

/-- The check-completeness and status-closedness invariant of the spec:
every stored profile carries exactly the closed check-name set, every
status in the four-element set. -/
def wfStore (s : List Profile) : Prop :=
  ∀ p ∈ s, p.checks.map Prod.fst = checkNames ∧ ∀ kv ∈ p.checks, kv.2 ∈ validStatuses

/-- States reachable from the empty store through the store operations,
with updateProfileCheck restricted to check names from the closed set
(the restriction the C5 counterexample forces). -/
inductive ReachableStore : List Profile → Prop where
  | empty : ReachableStore []
  | add (s : List Profile) (id u : String) (pr : Option ProbeResult) (ts : Nat) (wk : Bool) :
      ReachableStore s → ReachableStore (addProfileToQueue s id u pr ts wk).2
  | update (s : List Profile) (id ck st : String) (wk : Bool) :
      ReachableStore s → ck ∈ checkNames →
      ReachableStore (updateProfileCheck s id ck st wk).2
  | remove (s : List Profile) (id : String) :
      ReachableStore s → ReachableStore (removeProfileFromQueue s id).2
  | convert (s : List Profile) :
      ReachableStore s → ReachableStore (convertDeferredChecksToToCheck s)

theorem objSet_map_fst {V : Type} (m : List (String × V)) (k : String) (v : V)
    (h : k ∈ m.map Prod.fst) : (objSet m k v).map Prod.fst = m.map Prod.fst := by
  induction m with
  | nil => simp at h
  | cons kv rest ih =>
    by_cases hk : kv.1 = k
    · simp [objSet, hk]
    · simp only [List.map_cons, List.mem_cons] at h
      rcases h with h | h
    -- h : k = kv.1 contradicts hk
      · exact absurd h.symm hk
      · simp only [objSet, beq_iff_eq, hk, if_false, List.map_cons]
        rw [ih h]

theorem mem_objSet {V : Type} (m : List (String × V)) (k : String) (v : V) :
    ∀ kv ∈ objSet m k v, kv ∈ m ∨ kv = (k, v) := by
  induction m with
  | nil => intro kv hkv; simp [objSet] at hkv; simp [hkv]
  | cons kv0 rest ih =>
    intro kv hkv
    by_cases hk : kv0.1 = k
    · simp only [objSet, beq_iff_eq, hk, if_true, List.mem_cons] at hkv
      rcases hkv with h | h
      · exact Or.inr h
      · exact Or.inl (List.mem_cons_of_mem kv0 h)
    · simp only [objSet, beq_iff_eq, hk, if_false, List.mem_cons] at hkv
      rcases hkv with h | h
      · exact Or.inl (h ▸ List.mem_cons_self kv0 rest)
      · rcases ih kv h with h2 | h2
        · exact Or.inl (List.mem_cons_of_mem kv0 h2)
        · exact Or.inr h2

theorem mem_updateFirst (s : List Profile) (id ck st : String) :
    ∀ p ∈ updateFirst s id ck st,
      p ∈ s ∨ ∃ q ∈ s, p = { q with checks := objSet q.checks ck st } := by
  induction s with
  | nil => intro p hp; simp [updateFirst] at hp
  | cons q rest ih =>
    intro p hp
    by_cases hq : q.steam_id = id
    · simp only [updateFirst, beq_iff_eq, hq, if_true, List.mem_cons] at hp
      rcases hp with h | h
      · refine Or.inr ⟨q, List.mem_cons_self q rest, ?_⟩
        rw [h, hq]
      · exact Or.inl (List.mem_cons_of_mem q h)
    · simp only [updateFirst, beq_iff_eq, hq, if_false, List.mem_cons] at hp
      rcases hp with h | h
      · exact Or.inl (h ▸ List.mem_cons_self q rest)
      · rcases ih p h with h2 | ⟨q2, hq2, he⟩
        · exact Or.inl (List.mem_cons_of_mem q h2)
        · exact Or.inr ⟨q2, List.mem_cons_of_mem q hq2, he⟩

theorem wf_mkChecks :
    mkChecks.map Prod.fst = checkNames ∧ ∀ kv ∈ mkChecks, kv.2 ∈ validStatuses := by
  decide

theorem wfStore_addProfileToQueue (s : List Profile) (id u : String)
    (pr : Option ProbeResult) (ts : Nat) (wk : Bool) (h : wfStore s) :
    wfStore (addProfileToQueue s id u pr ts wk).2 := by
  unfold addProfileToQueue
  cases hf : s.find? (fun p => p.steam_id == id) with
  | some p => exact h
  | none =>
    by_cases hsup : (match pr with
        | some r => r.success && r.exists_
        | none => false) = true
    · simp only [hsup, if_true]
      exact h
    · simp only [hsup, if_false]
      cases wk with
      | false => exact h
      | true =>
        simp only
        intro p hp
        rcases List.mem_append.mp hp with h2 | h2
        · exact h p h2
        · rw [List.mem_singleton.mp h2]
          exact wf_mkChecks

theorem wfStore_updateProfileCheck (s : List Profile) (id ck st : String) (wk : Bool)
    (hck : ck ∈ checkNames) (h : wfStore s) :
    wfStore (updateProfileCheck s id ck st wk).2 := by
  unfold updateProfileCheck
  cases hf : s.find? (fun p => p.steam_id == id) with
  | none => exact h
  | some p0 =>
    cases wk with
    | false =>
      by_cases hst : st ∈ validStatuses
      · simp only [hst, if_true, if_false]
        exact h
      · simp only [hst, if_false]
        exact h
    | true =>
      by_cases hst : st ∈ validStatuses
      · simp only [hst, if_true]
        intro p hp
        rcases mem_updateFirst s id ck st p hp with h2 | ⟨q, hq, he⟩
        · exact h p h2
        · obtain ⟨hkeys, hvals⟩ := h q hq
          subst he
          constructor
          · simp only
            rw [objSet_map_fst q.checks ck st (hkeys ▸ hck)]
            exact hkeys
          · intro kv hkv
            rcases mem_objSet q.checks ck st kv hkv with h3 | h3
            · exact hvals kv h3
            · rw [h3]
              exact hst
      · simp only [hst, if_false]
        exact h

theorem wfStore_removeProfileFromQueue (s : List Profile) (id : String) (h : wfStore s) :
    wfStore (removeProfileFromQueue s id).2 := by
  unfold removeProfileFromQueue
  by_cases hl : (s.filter (fun p => !(p.steam_id == id))).length < s.length
  · simp only [hl, if_true]
    intro p hp
    exact h p (List.mem_of_mem_filter hp)
  · simp only [hl, if_false]
    exact h

theorem wfStore_convertDeferredChecksToToCheck (s : List Profile) (h : wfStore s) :
    wfStore (convertDeferredChecksToToCheck s) := by
  intro p hp
  obtain ⟨q, hq, he⟩ := List.mem_map.mp hp
  obtain ⟨hkeys, hvals⟩ := h q hq
  subst he
  constructor
  · simp only [convertChecks, List.map_map]
    rw [show (Prod.fst ∘ fun kv : String × String =>
        if kv.2 == "deferred" then (kv.1, "to_check") else kv) = Prod.fst by
      funext kv
      by_cases hd : kv.2 = "deferred" <;> simp [hd]]
    exact hkeys
  · intro kv hkv
    simp only [convertChecks, List.mem_map] at hkv
    obtain ⟨kv0, hkv0, he0⟩ := hkv
    by_cases hd : kv0.2 = "deferred"
    · rw [show kv = (kv0.1, "to_check") by rw [← he0]; simp [hd]]
      show "to_check" ∈ validStatuses
      decide
    · rw [show kv = kv0 by rw [← he0]; simp [hd]]
      exact hvals kv0 hkv0

/-- C5 counterexample: starting from the empty store, addProfileToQueue
then updateProfileCheck with a check name outside the closed set yields
a stored profile with an extra eighth key — the operations do NOT
preserve the exact-seven-keys invariant for arbitrary arguments. -/
theorem claim_C5_counterexample :
    ¬ wfStore (updateProfileCheck (addProfileToQueue [] "A" "alice" none 0 true).2
        "A" "bogus" "passed" true).2 := by
  unfold wfStore
  decide

/-- C5 amended: every state reachable from the empty store via
addProfileToQueue, removeProfileFromQueue, convertDeferredChecksToToCheck
(arbitrary arguments) and updateProfileCheck restricted to check names
from the closed seven-element set satisfies the invariant: each stored
profile's checks mapping has exactly the seven known keys and every
status lies in the four-element set. -/
theorem claim_C5 (s : List Profile) (h : ReachableStore s) : wfStore s := by
  induction h with
  | empty => intro p hp; cases hp
  | add s id u pr ts wk _ ih => exact wfStore_addProfileToQueue s id u pr ts wk ih
  | update s id ck st wk _ hck ih => exact wfStore_updateProfileCheck s id ck st wk hck ih
  | remove s id _ ih => exact wfStore_removeProfileFromQueue s id ih
  | convert s _ ih => exact wfStore_convertDeferredChecksToToCheck s ih

/-- C5 witness: the store obtained by one insert and one in-set status
update is reachable and well formed. -/
theorem claim_C5_witness :
    wfStore (updateProfileCheck (addProfileToQueue [] "A" "alice" none 0 true).2
      "A" "friends" "deferred" true).2 :=
  claim_C5 _
    (ReachableStore.update (addProfileToQueue [] "A" "alice" none 0 true).2
      "A" "friends" "deferred" true
      (ReachableStore.add [] "A" "alice" none 0 true ReachableStore.empty)
      (by decide))

end SteamIdProcessor
